import Mathlib

/-!
Verification of the jabracadabra voice front-end.

This file gives a shallow embedding of the concurrent audio-triage pipeline
of the repository (wake-word scoring with threshold/cooldown debouncing,
segment framing, the transcription worker state machine, segment dispatch,
and the assistant variant's processing loop), translated from:

- src/wake_transcription_demo.py  (class VoiceAssistant)
- src/openwakeword_detector.py    (class OpenWakeWordDetector)
- src/ollama_voice_assistant.py   (class VoiceAssistant, regex variant)

Timestamps and detection scores are modelled as rationals; raw 16-bit PCM
samples as integers; transcription outcomes as Except values whose error
case stands for a raised exception.
-/

set_option maxRecDepth 16384

namespace Jabra

/-! ## Framing
wake_transcription_demo.py, wake_word_worker (and identically
openwakeword_detector.py, start):

    chunk_size = 1280
    for i in range(0, len(audio_np), chunk_size):
        chunk = audio_np[i:i + chunk_size]
        if len(chunk) < chunk_size:
            chunk = np.pad(chunk, (0, chunk_size - len(chunk)))
-/

def chunk_size : Nat := 1280

/-- np.pad(chunk, (0, chunk_size - len(chunk))) applied only when the chunk
is short, exactly as guarded in the source. -/
def padFrame (chunk : List Int) : List Int :=
  if chunk.length < chunk_size then
    chunk ++ List.replicate (chunk_size - chunk.length) 0
  else chunk

/-- The frame sequence produced from one segment's samples: successive
slices audio[i : i+1280] for i = 0, 1280, 2560, ..., the last one padded. -/
def frames (l : List Int) : List (List Int) :=
  if l = [] then []
  else padFrame (l.take chunk_size) :: frames (l.drop chunk_size)
termination_by l.length
decreasing_by
  have h1 : l.length ≠ 0 := by
    intro h0
    exact (by assumption : ¬ l = []) (List.length_eq_zero.mp h0)
  simp only [List.length_drop, chunk_size]
  omega

theorem frames_nil : frames [] = [] := by
  rw [frames]
  simp

theorem frames_cons (l : List Int) (h : l ≠ []) :
    frames l = padFrame (l.take chunk_size) :: frames (l.drop chunk_size) := by
  rw [frames]
  simp [h]

theorem padFrame_length (c : List Int) (h : c.length ≤ chunk_size) :
    (padFrame c).length = chunk_size := by
  unfold padFrame
  split
  · simp
    omega
  · omega

/-- Every frame produced from a segment has exactly chunk_size samples. -/
theorem frames_length (l : List Int) : ∀ f ∈ frames l, f.length = chunk_size := by
  suffices H : ∀ (n : Nat) (l : List Int), l.length = n → ∀ f ∈ frames l, f.length = chunk_size from
    H l.length l rfl
  intro n
  induction n using Nat.strong_induction_on with
  | _ n ih =>
    intro l hl f hf
    rcases eq_or_ne l [] with rfl | hne
    · rw [frames_nil] at hf
      exact absurd hf (List.not_mem_nil f)
    · rw [frames_cons l hne] at hf
      rcases List.mem_cons.mp hf with rfl | htail
      · exact padFrame_length _ (by simp)
      · have hlen : (l.drop chunk_size).length < n := by
          have : 0 < l.length := List.length_pos.mpr hne
          simp only [List.length_drop, chunk_size] at *
          omega
        exact ih _ hlen (l.drop chunk_size) rfl f htail

/-- When the sample count is not a multiple of chunk_size, the final frame is
the remaining tail samples zero-padded at the end to chunk_size. -/
theorem frames_getLast (l : List Int) (h : l.length % chunk_size ≠ 0) :
    (frames l).getLast? =
      some ((l.drop (chunk_size * (l.length / chunk_size))) ++
        List.replicate (chunk_size - l.length % chunk_size) 0) := by
  suffices H : ∀ (n : Nat) (l : List Int), l.length = n → l.length % chunk_size ≠ 0 →
      (frames l).getLast? =
        some ((l.drop (chunk_size * (l.length / chunk_size))) ++
          List.replicate (chunk_size - l.length % chunk_size) 0) from
    H l.length l rfl h
  intro n
  induction n using Nat.strong_induction_on with
  | _ n ih =>
    intro l hl h
    have hne : l ≠ [] := by
      intro h0
      rw [h0] at h
      simp at h
    have hcs : (0:Nat) < chunk_size := by decide
    rcases lt_or_le l.length chunk_size with hsmall | hbig
    · have hdrop : l.drop chunk_size = [] := List.drop_eq_nil_of_le (le_of_lt hsmall)
      have hdiv : l.length / chunk_size = 0 := Nat.div_eq_of_lt hsmall
      have hmod : l.length % chunk_size = l.length := Nat.mod_eq_of_lt hsmall
      have htake : l.take chunk_size = l := List.take_of_length_le (le_of_lt hsmall)
      rw [frames_cons l hne, hdrop, frames_nil, htake]
      unfold padFrame
      rw [if_pos hsmall, hdiv, hmod]
      simp
    · have hdne : l.drop chunk_size ≠ [] := by
        intro h0
        have h1 : l.length - chunk_size = 0 := by
          have h2 := congrArg List.length h0
          simpa using h2
        have h3 : l.length = chunk_size := by omega
        rw [h3, Nat.mod_self] at h
        exact h rfl
      have hfne : frames (l.drop chunk_size) ≠ [] := by
        rw [frames_cons _ hdne]
        simp
      have hgl : ∀ (a : List Int) (t : List (List Int)), t ≠ [] →
          (a :: t).getLast? = t.getLast? := by
        intro a t ht
        cases t with
        | nil => exact absurd rfl ht
        | cons b t2 => exact List.getLast?_cons_cons
      rw [frames_cons l hne, hgl _ _ hfne]
      have hdl : (l.drop chunk_size).length = l.length - chunk_size := List.length_drop _ _
      have hmod : (l.drop chunk_size).length % chunk_size = l.length % chunk_size := by
        rw [hdl]
        exact (Nat.mod_eq_sub_mod hbig).symm
      have hrec := ih (l.drop chunk_size).length
        (by rw [hdl]; omega)
        (l.drop chunk_size) rfl (by rw [hmod]; exact h)
      rw [hrec, List.drop_drop, hmod]
      have hdiv : l.length / chunk_size = (l.length - chunk_size) / chunk_size + 1 :=
        Nat.div_eq_sub_div hcs hbig
      have harith : chunk_size + chunk_size * ((l.drop chunk_size).length / chunk_size)
          = chunk_size * (l.length / chunk_size) := by
        rw [hdl, hdiv]
        ring
      rw [harith]

/-- A 2000-sample segment yields exactly two frames: the first 1280 samples,
then the remaining 720 samples followed by 560 zeros. -/
theorem frames_2000 (l : List Int) (h : l.length = 2000) :
    frames l = [l.take chunk_size, l.drop chunk_size ++ List.replicate 560 0] := by
  have hne : l ≠ [] := by
    intro h0
    rw [h0] at h
    simp at h
  rw [frames_cons l hne]
  have hd : (l.drop chunk_size).length = 720 := by
    simp [List.length_drop, h, chunk_size]
  have hdne : l.drop chunk_size ≠ [] := by
    intro h0
    rw [h0] at hd
    simp at hd
  rw [frames_cons _ hdne]
  have hdd : (l.drop chunk_size).drop chunk_size = [] :=
    List.drop_eq_nil_of_le (by rw [hd]; decide)
  have hdt : (l.drop chunk_size).take chunk_size = l.drop chunk_size :=
    List.take_of_length_le (by rw [hd]; decide)
  rw [hdd, frames_nil, hdt]
  have ht : (l.take chunk_size).length = chunk_size := by
    simp [List.length_take, h, chunk_size]
  unfold padFrame
  rw [if_neg (by rw [ht]; omega), if_pos (by rw [hd]; decide), hd]
  norm_num [chunk_size]

/-! ## Wake-word worker: threshold and cooldown debouncing
wake_transcription_demo.py, wake_word_worker (and identically
openwakeword_detector.py, start):

    for wake_word, score in prediction.items():
        current_time = time.time()
        if score >= self.wake_threshold:
            if current_time - self.last_detection >= self.cooldown:
                self.play_sound()
                self.is_awake = True
                self.last_detection = current_time
                break

The object fields involved are modelled as WakeState; the fields are
initialised in the constructor as last_detection = 0, is_awake = False.
A score event is a pair (score, time): the model score of a frame,
together with the value time.time() read for that prediction item.
The wake worker returns the list of timestamps of accepted triggers.
play_sound never raises (it catches its own exceptions) and returns no
value, so it does not appear in the state transition.
-/

structure WakeState where
  lastDetection : ℚ
  isAwake : Bool
deriving DecidableEq, Repr

/-- The inner loop over prediction.items() for one frame.  An accepted
trigger ends the loop (break); a below-threshold or in-cooldown score is
discarded and scanning continues with the next item. -/
def scanScores (threshold cooldown : ℚ) (st : WakeState) :
    List (ℚ × ℚ) → WakeState × List ℚ
  | [] => (st, [])
  | (score, t) :: rest =>
    if threshold ≤ score then
      if cooldown ≤ t - st.lastDetection then
        ({ lastDetection := t, isAwake := true }, [t])
      else scanScores threshold cooldown st rest
    else scanScores threshold cooldown st rest

/-- The loop over one segment's frames.  The source's break only leaves the
inner prediction.items() loop, so scanning continues with the next frame. -/
def scanSegment (threshold cooldown : ℚ) :
    WakeState → List (List (ℚ × ℚ)) → WakeState × List ℚ
  | st, [] => (st, [])
  | st, frame :: rest =>
    let r1 := scanScores threshold cooldown st frame
    let r2 := scanSegment threshold cooldown r1.1 rest
    (r2.1, r1.2 ++ r2.2)

/-- The worker across successive segments popped from the wake queue. -/
def runWakeWorker (threshold cooldown : ℚ) :
    WakeState → List (List (List (ℚ × ℚ))) → WakeState × List ℚ
  | st, [] => (st, [])
  | st, seg :: rest =>
    let r1 := scanSegment threshold cooldown st seg
    let r2 := runWakeWorker threshold cooldown r1.1 rest
    (r2.1, r1.2 ++ r2.2)

/-- The last element of a list, or a default when the list is empty. -/
def lastOr : List ℚ → ℚ → ℚ
  | [], d => d
  | t :: ts, _ => lastOr ts t

/-- Each accepted-trigger timestamp exceeds its predecessor (or the initial
last-detection time) by at least the cooldown. -/
def Spaced (cooldown : ℚ) : ℚ → List ℚ → Prop
  | _, [] => True
  | last, t :: ts => last + cooldown ≤ t ∧ Spaced cooldown t ts

theorem lastOr_append : ∀ (l1 l2 : List ℚ) (d : ℚ),
    lastOr (l1 ++ l2) d = lastOr l2 (lastOr l1 d)
  | [], _, _ => rfl
  | _ :: l1, l2, _ => lastOr_append l1 l2 _

theorem spaced_append {c : ℚ} : ∀ (l1 l2 : List ℚ) (last : ℚ),
    Spaced c last l1 → Spaced c (lastOr l1 last) l2 → Spaced c last (l1 ++ l2)
  | [], _, _, _, h2 => h2
  | _ :: l1, l2, _, h1, h2 => ⟨h1.1, spaced_append l1 l2 _ h1.2 h2⟩

theorem spaced_pairwise {c : ℚ} (hc : 0 ≤ c) : ∀ (l : List ℚ) (last : ℚ),
    Spaced c last l → l.Pairwise (fun a b => a + c ≤ b) ∧ ∀ t ∈ l, last + c ≤ t := by
  intro l
  induction l with
  | nil =>
    intro last _
    exact ⟨List.Pairwise.nil, by simp⟩
  | cons t ts ih =>
    intro last hsp
    obtain ⟨h1, h2⟩ := hsp
    obtain ⟨hpw, hmem⟩ := ih t h2
    constructor
    · exact List.Pairwise.cons hmem hpw
    · intro x hx
      rcases List.mem_cons.mp hx with rfl | hx2
      · exact h1
      · have := hmem x hx2
        linarith

/-- scanScores either leaves the state untouched and accepts nothing, or
accepts exactly one trigger: a score event with score at least the
threshold, at least cooldown after the previous detection. -/
theorem scanScores_cases (th c : ℚ) (st : WakeState) (evs : List (ℚ × ℚ)) :
    scanScores th c st evs = (st, []) ∨
    ∃ t, scanScores th c st evs = ({ lastDetection := t, isAwake := true }, [t]) ∧
      st.lastDetection + c ≤ t ∧ ∃ s, (s, t) ∈ evs ∧ th ≤ s := by
  induction evs with
  | nil => exact Or.inl rfl
  | cons ev rest ih =>
    obtain ⟨s, t⟩ := ev
    simp only [scanScores]
    split_ifs with h1 h2
    · refine Or.inr ⟨t, rfl, by linarith, s, ?_, h1⟩
      exact List.mem_cons_self _ _
    · rcases ih with hcase | ⟨t2, he, hsp, s2, hmem, hth⟩
      · exact Or.inl hcase
      · exact Or.inr ⟨t2, he, hsp, s2, List.mem_cons_of_mem _ hmem, hth⟩
    · rcases ih with hcase | ⟨t2, he, hsp, s2, hmem, hth⟩
      · exact Or.inl hcase
      · exact Or.inr ⟨t2, he, hsp, s2, List.mem_cons_of_mem _ hmem, hth⟩

/-- Invariant of the per-segment scan: accepted triggers are spaced by the
cooldown, the final last-detection time is the last accepted trigger, and
every accepted trigger time comes from a frame score meeting the threshold. -/
theorem scanSegment_inv (th c : ℚ) : ∀ (fs : List (List (ℚ × ℚ))) (st : WakeState),
    Spaced c st.lastDetection (scanSegment th c st fs).2 ∧
    (scanSegment th c st fs).1.lastDetection = lastOr (scanSegment th c st fs).2 st.lastDetection ∧
    ∀ t ∈ (scanSegment th c st fs).2, ∃ s, (s, t) ∈ fs.flatten ∧ th ≤ s := by
  intro fs
  induction fs with
  | nil =>
    intro st
    exact ⟨trivial, rfl, by simp [scanSegment]⟩
  | cons frame rest ih =>
    intro st
    rcases scanScores_cases th c st frame with hcase | ⟨t, he, hsp, s, hmem, hth⟩
    · obtain ⟨ih1, ih2, ih3⟩ := ih st
      simp only [scanSegment, hcase]
      refine ⟨ih1, ih2, ?_⟩
      intro t ht
      obtain ⟨s, hs, hths⟩ := ih3 t ht
      exact ⟨s, by simp [List.mem_append]; right; simpa using hs, hths⟩
    · obtain ⟨ih1, ih2, ih3⟩ := ih { lastDetection := t, isAwake := true }
      simp only [scanSegment, he]
      constructor
      · exact spaced_append [t] _ st.lastDetection ⟨hsp, trivial⟩ ih1
      · constructor
        · rw [lastOr_append]
          exact ih2
        · intro t2 ht2
          rcases List.mem_append.mp ht2 with hin | hin
          · have : t2 = t := by simpa using hin
            subst this
            exact ⟨s, by simp [List.mem_append]; left; exact hmem, hth⟩
          · obtain ⟨s2, hs2, hths2⟩ := ih3 t2 hin
            exact ⟨s2, by simp [List.mem_append]; right; simpa using hs2, hths2⟩

/-- The same invariant lifted to the whole worker run. -/
theorem runWakeWorker_inv (th c : ℚ) : ∀ (segs : List (List (List (ℚ × ℚ)))) (st : WakeState),
    Spaced c st.lastDetection (runWakeWorker th c st segs).2 ∧
    (runWakeWorker th c st segs).1.lastDetection
      = lastOr (runWakeWorker th c st segs).2 st.lastDetection ∧
    ∀ t ∈ (runWakeWorker th c st segs).2,
      ∃ sg ∈ segs, ∃ s, (s, t) ∈ sg.flatten ∧ th ≤ s := by
  intro segs
  induction segs with
  | nil =>
    intro st
    exact ⟨trivial, rfl, by simp [runWakeWorker]⟩
  | cons seg rest ih =>
    intro st
    obtain ⟨h1, h2, h3⟩ := scanSegment_inv th c seg st
    obtain ⟨ih1, ih2, ih3⟩ := ih (scanSegment th c st seg).1
    simp only [runWakeWorker]
    constructor
    · refine spaced_append _ _ _ h1 ?_
      rw [← h2]
      exact ih1
    · constructor
      · rw [lastOr_append, ← h2]
        exact ih2
      · intro t ht
        rcases List.mem_append.mp ht with hin | hin
        · obtain ⟨s, hs, hth⟩ := h3 t hin
          exact ⟨seg, List.mem_cons_self _ _, s, hs, hth⟩
        · obtain ⟨sg, hsg, s, hs, hth⟩ := ih3 t hin
          exact ⟨sg, List.mem_cons_of_mem _ hsg, s, hs, hth⟩

/-- The spec's scenario, shifted by the session start time t0: the clock
values time.time() are arbitrary rationals and last_detection starts at 0,
so the scenario's relative times 0.0, 0.5, 3.0 become t0, t0 + 1/2, t0 + 3
for any wall-clock start t0 at least one cooldown after the epoch. -/
theorem wake_scenario (t0 : ℚ) (h : 2 ≤ t0) :
    runWakeWorker (1/2) 2 { lastDetection := 0, isAwake := false }
      [[[(7/10, t0)]], [[(9/10, t0 + 1/2)]], [[(6/10, t0 + 3)]]]
      = ({ lastDetection := t0 + 3, isAwake := true }, [t0, t0 + 3]) := by
  have h2 : (2:ℚ) ≤ t0 - 0 := by linarith
  have h4 : ¬ ((2:ℚ) ≤ t0 + 1/2 - t0) := by
    intro hx
    linarith
  have h6 : (2:ℚ) ≤ t0 + 3 - t0 := by linarith
  simp only [runWakeWorker, scanSegment, scanScores]
  norm_num [h, h4, h6]

/-! ## Transcription worker (demo variant)
wake_transcription_demo.py, transcription_worker:

    try:
        text = self.transcribe_audio(audio_data)
        if text.strip():
            if self.is_awake:
                print(Command); self.is_awake = False
            else:
                print(Monitoring)
    except Exception as e:
        print(Error)

A transcription outcome is Except String String: ok text for a normal
return, error msg for a raised exception anywhere inside the try block.
-/

/-- Truthiness of text.strip(): true iff some character is not whitespace. -/
def strip_nonempty (s : String) : Bool := !(s.data.all Char.isWhitespace)

inductive TransEvent where
  | command (text : String)
  | monitoring (text : String)
  | transError (msg : String)
deriving DecidableEq, Repr

/-- One iteration of the demo transcription worker on one popped segment. -/
def transcription_step (isAwake : Bool) (res : Except String String) :
    Bool × List TransEvent :=
  match res with
  | .error e => (isAwake, [.transError e])
  | .ok text =>
    if strip_nonempty text then
      if isAwake then (false, [.command text])
      else (isAwake, [.monitoring text])
    else (isAwake, [])

/-- The demo transcription worker over the sequence of popped segments'
transcription outcomes. -/
def transcription_worker (isAwake : Bool) :
    List (Except String String) → Bool × List TransEvent
  | [] => (isAwake, [])
  | r :: rs =>
    let s1 := transcription_step isAwake r
    let s2 := transcription_worker s1.1 rs
    (s2.1, s1.2 ++ s2.2)

/-! ## Feedback playback
wake_transcription_demo.py, play_sound (identically in the other scripts):

    try:
        data, samplerate = sf.read(self.sound_file)
        sd.play(data, samplerate); sd.wait()
    except Exception as e:
        print(f"Sound error: ...")

The Except argument stands for the outcome of the read/play/wait calls;
the function always returns normally.
-/

inductive PlayOutcome where
  | played
  | soundError (msg : String)
deriving DecidableEq, Repr

def play_sound : Except String Unit → PlayOutcome
  | .ok _ => .played
  | .error e => .soundError e

/-! ## Capture dispatch (demo variant)
wake_transcription_demo.py, audio_callback:

    audio_data = audio.get_raw_data()
    self.wake_queue.put(audio_data)
    self.transcription_queue.put(audio_data)
-/

inductive QueueId where
  | wakeQ
  | transcriptionQ
deriving DecidableEq, Repr

structure ConsumerQueues where
  wake_queue : List (List Int)
  transcription_queue : List (List Int)
deriving DecidableEq, Repr

/-- The ordered queue pushes performed by one callback invocation:
wake queue first, then transcription queue. -/
def audio_callback (seg : List Int) : List (QueueId × List Int) :=
  [(.wakeQ, seg), (.transcriptionQ, seg)]

def applyPush (q : ConsumerQueues) (p : QueueId × List Int) : ConsumerQueues :=
  match p.1 with
  | .wakeQ => { q with wake_queue := q.wake_queue ++ [p.2] }
  | .transcriptionQ => { q with transcription_queue := q.transcription_queue ++ [p.2] }

/-- The queue contents after the callback has run on each captured segment
in capture order. -/
def dispatchAll (segs : List (List Int)) : ConsumerQueues :=
  (segs.map audio_callback).flatten.foldl applyPush { wake_queue := [], transcription_queue := [] }

theorem dispatchAll_go (segs : List (List Int)) : ∀ (q : ConsumerQueues),
    (segs.map audio_callback).flatten.foldl applyPush q
      = { wake_queue := q.wake_queue ++ segs, transcription_queue := q.transcription_queue ++ segs } := by
  induction segs with
  | nil =>
    intro q
    simp [List.foldl]
  | cons seg rest ih =>
    intro q
    simp only [List.map_cons, List.flatten_cons, List.foldl_append]
    rw [ih]
    simp [audio_callback, List.foldl, applyPush]

/-! ## Assistant variant
ollama_voice_assistant.py, class VoiceAssistant.

The wake check is the constructor's configurable compiled regex; the
process_audio loop body for one dequeued segment is:

    try:
        text = self.transcribe(audio_data)
        if not text.strip(): continue
        if not self.is_awake:
            print(Monitoring)
            if self.check_wake_word(text):
                self.play_sound(); self.is_awake = True
        else:
            print(Command)
            self.is_processing = True
            response = self.ask_ollama(text)   # catches internally
            self.is_processing = False
            self.is_awake = False
    except Exception as e:
        print(Error); self.is_awake = False
-/

structure AssistantState where
  isAwake : Bool
  isProcessing : Bool
deriving DecidableEq, Repr

inductive AssistantEvent where
  | monitoring (text : String)
  | wakeDetected
  | command (text : String)
  | askOllama (text : String)
  | procError (msg : String)
deriving DecidableEq, Repr

/-- One iteration of process_audio on one dequeued segment, parameterised
by the configured wake-pattern check. -/
def process_audio_step (checkWake : String → Bool) (st : AssistantState)
    (res : Except String String) : AssistantState × List AssistantEvent :=
  match res with
  | .error e => ({ st with isAwake := false }, [.procError e])
  | .ok text =>
    if !(strip_nonempty text) then (st, [])
    else if !st.isAwake then
      if checkWake text then
        ({ st with isAwake := true }, [.monitoring text, .wakeDetected])
      else (st, [.monitoring text])
    else
      ({ isAwake := false, isProcessing := false }, [.command text, .askOllama text])

/-! check_wake_word with the default configuration: the case-insensitive
regex search for the pattern

    \b(hey|hi|hello)\s+(assistant|jarvis)\b

over ASCII text, translated as an explicit scan over the characters. -/

def isWordChar (c : Char) : Bool := c.isAlphanum || c == '_'

/-- Case-insensitive literal match; on success returns the remaining text. -/
def matchCI : List Char → List Char → Option (List Char)
  | [], rest => some rest
  | _ :: _, [] => none
  | p :: ps, c :: cs => if p.toLower == c.toLower then matchCI ps cs else none

def wakeWords1 : List (List Char) := ["hey".data, "hi".data, "hello".data]

def wakeWords2 : List (List Char) := ["assistant".data, "jarvis".data]

/-- Try to match (hey|hi|hello)\s+(assistant|jarvis)\b at this position. -/
def tryMatchAt (cs : List Char) : Bool :=
  wakeWords1.any fun w1 =>
    match matchCI w1 cs with
    | none => false
    | some r1 =>
      match r1 with
      | [] => false
      | c :: _ =>
        c.isWhitespace &&
        wakeWords2.any fun w2 =>
          match matchCI w2 (r1.dropWhile Char.isWhitespace) with
          | none => false
          | some [] => true
          | some (d :: _) => !(isWordChar d)

/-- Regex search: try each position whose predecessor is a word boundary. -/
def searchWake : Bool → List Char → Bool
  | _, [] => false
  | boundary, c :: cs => (boundary && tryMatchAt (c :: cs)) || searchWake (!(isWordChar c)) cs

def check_wake_word (s : String) : Bool := searchWake true s.data

/-! ## Assistant capture callback
ollama_voice_assistant.py, _audio_callback:

    def _audio_callback(self, _, audio):
        if not self.is_processing:
            self.audio_queue.put(audio.get_raw_data())
-/

def assistant_audio_callback (st : AssistantState) (queue : List (List Int))
    (seg : List Int) : List (List Int) :=
  if st.isProcessing then queue else queue ++ [seg]

/-! ## Claim theorems -/

/-- C1: In every run of the wake-word worker over per-frame detection
scores with timestamps, a trigger is accepted only from a score meeting the
threshold, accepted triggers are spaced at least cooldownSeconds apart
pairwise, and in-cooldown or low scores are discarded, not queued.  With
threshold 0.5 and cooldown 2.0, scores 0.7, 0.9, 0.6 at relative times
0.0, 0.5, 3.0 after any session start time t0 (the code reads the wall
clock and starts with last_detection = 0, so t0 is at least one cooldown)
give exactly two accepted triggers, at relative times 0.0 and 3.0. -/
theorem claim1_cooldown_debounce (threshold cooldown t0 : ℚ) (st : WakeState)
    (segs : List (List (List (ℚ × ℚ))))
    (hc : 0 ≤ cooldown) (ht0 : 2 ≤ t0) :
    Spaced cooldown st.lastDetection (runWakeWorker threshold cooldown st segs).2 ∧
    (runWakeWorker threshold cooldown st segs).2.Pairwise (fun a b => a + cooldown ≤ b) ∧
    (∀ t ∈ (runWakeWorker threshold cooldown st segs).2,
      ∃ sg ∈ segs, ∃ s, (s, t) ∈ sg.flatten ∧ threshold ≤ s) ∧
    runWakeWorker (1/2) 2 { lastDetection := 0, isAwake := false }
      [[[(7/10, t0)]], [[(9/10, t0 + 1/2)]], [[(6/10, t0 + 3)]]]
      = ({ lastDetection := t0 + 3, isAwake := true }, [t0, t0 + 3]) := by
  obtain ⟨h1, _, h3⟩ := runWakeWorker_inv threshold cooldown segs st
  exact ⟨h1, (spaced_pairwise hc _ _ h1).1, h3, wake_scenario t0 ht0⟩

theorem claim1_cooldown_debounce_witness :
    ((0:ℚ) ≤ 2 ∧ (2:ℚ) ≤ 100) ∧
    Spaced 2 (0:ℚ) (runWakeWorker (1/2) 2 { lastDetection := 0, isAwake := false }
      [[[(7/10, 100)]], [[(9/10, 100 + 1/2)]], [[(6/10, 100 + 3)]]]).2 ∧
    runWakeWorker (1/2) 2 { lastDetection := 0, isAwake := false }
      [[[(7/10, (100:ℚ))]], [[(9/10, 100 + 1/2)]], [[(6/10, 100 + 3)]]]
      = ({ lastDetection := 100 + 3, isAwake := true }, [100, 100 + 3]) := by
  have h := claim1_cooldown_debounce (1/2) 2 100 { lastDetection := 0, isAwake := false }
    [[[(7/10, 100)]], [[(9/10, 100 + 1/2)]], [[(6/10, 100 + 3)]]] (by norm_num) (by norm_num)
  exact ⟨⟨by norm_num, by norm_num⟩, h.1, h.2.2.2⟩

/-- C2 counterexample: one segment of two frames, both scoring 0.9 with the
default threshold 0.5 and cooldown 2.0, with the wall clock more than one
cooldown apart between the two frames (the synchronous feedback playback
blocks the worker between frames).  The worker accepts two triggers in this
single segment: the source's break leaves only the inner score loop, so
scanning does not stop after the first accepted trigger of a segment. -/
theorem claim2_counterexample :
    (scanSegment (1/2) 2 { lastDetection := 0, isAwake := false }
      [[(9/10, 100)], [(9/10, 103)]]).2 = [100, 103] := by
  norm_num [scanSegment, scanScores]

/-- C2 amended: after an accepted trigger the worker stops scanning the
remaining model scores of that frame, so at most one trigger is accepted
per frame and an accepted trigger's result does not depend on the rest of
that frame; scanning then continues with the segment's remaining frames,
each of which may accept a further trigger whenever its score meets the
threshold outside the cooldown window. -/
theorem claim2_one_trigger_per_frame (threshold cooldown : ℚ) (st : WakeState)
    (frame : List (ℚ × ℚ)) :
    (scanScores threshold cooldown st frame).2.length ≤ 1 ∧
    (∀ s t rest, threshold ≤ s → cooldown ≤ t - st.lastDetection →
      scanScores threshold cooldown st ((s, t) :: rest)
        = ({ lastDetection := t, isAwake := true }, [t])) ∧
    (∀ frame2 rest, scanSegment threshold cooldown st (frame2 :: rest)
        = ((scanSegment threshold cooldown (scanScores threshold cooldown st frame2).1 rest).1,
           (scanScores threshold cooldown st frame2).2 ++
             (scanSegment threshold cooldown (scanScores threshold cooldown st frame2).1 rest).2)) := by
  refine ⟨?_, ?_, ?_⟩
  · induction frame with
    | nil => simp [scanScores]
    | cons ev rest ih =>
      obtain ⟨s, t⟩ := ev
      simp only [scanScores]
      split_ifs
      · simp
      · exact ih
      · exact ih
  · intro s t rest hs ht
    simp [scanScores, hs, ht]
  · intro frame2 rest
    rfl

theorem claim2_one_trigger_per_frame_witness :
    ((1:ℚ)/2 ≤ 9/10 ∧
      (2:ℚ) ≤ 100 - ({ lastDetection := 0, isAwake := false } : WakeState).lastDetection) ∧
    (scanScores (1/2) 2 { lastDetection := 0, isAwake := false } [((9:ℚ)/10, 100)]).2.length ≤ 1 ∧
    scanScores (1/2) 2 { lastDetection := 0, isAwake := false } [((9:ℚ)/10, 100), (0, 0)]
      = ({ lastDetection := 100, isAwake := true }, [100]) := by
  have h := claim2_one_trigger_per_frame (1/2) 2
    { lastDetection := 0, isAwake := false } [((9:ℚ)/10, 100)]
  have hc : (2:ℚ) ≤ 100 - ({ lastDetection := 0, isAwake := false } : WakeState).lastDetection := by
    show (2:ℚ) ≤ 100 - 0
    norm_num
  exact ⟨⟨by norm_num, hc⟩, h.1, h.2.1 (9/10) 100 [(0, 0)] (by norm_num) hc⟩

/-- C3 counterexample: on a 2000-sample segment the claimed final frame,
samples[1280:2000] followed by 720 zeros, is not what the framing step
produces: the 720 tail samples are padded with 560 zeros to reach the frame
size 1280 (720 further zeros would give a 1440-sample frame). -/
theorem claim3_counterexample :
    frames (List.replicate 2000 1) ≠
      [List.replicate 1280 (1:Int),
       List.replicate 720 (1:Int) ++ List.replicate 720 0] := by
  have h := frames_2000 (List.replicate 2000 1) (by simp)
  intro hc
  rw [h] at hc
  have h2 := congrArg (fun L => (L.getD 1 []).length) hc
  simp [chunk_size] at h2

/-- C3 amended: for every segment whose sample count is not a multiple of
the frame size 1280, every produced frame has exactly 1280 samples and the
final frame is the remaining tail samples followed by zeros appended up to
1280; a 2000-sample segment yields exactly two frames, samples[0:1280] and
samples[1280:2000] padded with 560 trailing zeros (1280 - 720 = 560). -/
theorem claim3_framing (l : List Int) (h : l.length % chunk_size ≠ 0) :
    (∀ f ∈ frames l, f.length = chunk_size) ∧
    (frames l).getLast? =
      some ((l.drop (chunk_size * (l.length / chunk_size))) ++
        List.replicate (chunk_size - l.length % chunk_size) 0) ∧
    (l.length = 2000 →
      frames l = [l.take chunk_size, l.drop chunk_size ++ List.replicate 560 0]) :=
  ⟨frames_length l, frames_getLast l h, frames_2000 l⟩

theorem claim3_framing_witness :
    (List.replicate 2000 (1:Int)).length % chunk_size ≠ 0 ∧
    (∀ f ∈ frames (List.replicate 2000 (1:Int)), f.length = chunk_size) ∧
    (frames (List.replicate 2000 (1:Int))).getLast? =
      some ((List.replicate 2000 (1:Int)).drop
          (chunk_size * ((List.replicate 2000 (1:Int)).length / chunk_size)) ++
        List.replicate (chunk_size - (List.replicate 2000 (1:Int)).length % chunk_size) 0) ∧
    ((List.replicate 2000 (1:Int)).length = 2000 →
      frames (List.replicate 2000 (1:Int))
        = [(List.replicate 2000 (1:Int)).take chunk_size,
           (List.replicate 2000 (1:Int)).drop chunk_size ++ List.replicate 560 0]) := by
  have hh : (List.replicate 2000 (1:Int)).length % chunk_size ≠ 0 := by
    simp [chunk_size]
  exact ⟨hh, claim3_framing _ hh⟩

/-- C4: with SessionState Awake, a non-empty transcription result is
dispatched as exactly one command and the state returns to Idle; an
immediately following non-empty transcription without a new wake trigger is
treated as monitoring.  This holds for the demo transcription worker and
for the assistant variant, where the command is handed to the downstream
handler (ask_ollama) exactly once. -/
theorem claim4_awake_command :
    (∀ text, strip_nonempty text = true →
      transcription_step true (Except.ok text) = (false, [TransEvent.command text])) ∧
    (∀ t1 t2, strip_nonempty t1 = true → strip_nonempty t2 = true →
      transcription_worker true [Except.ok t1, Except.ok t2]
        = (false, [TransEvent.command t1, TransEvent.monitoring t2])) ∧
    (∀ (checkWake : String → Bool) (p : Bool) (text : String), strip_nonempty text = true →
      process_audio_step checkWake { isAwake := true, isProcessing := p } (Except.ok text)
        = ({ isAwake := false, isProcessing := false },
           [AssistantEvent.command text, AssistantEvent.askOllama text])) := by
  refine ⟨?_, ?_, ?_⟩
  · intro text h
    simp [transcription_step, h]
  · intro t1 t2 h1 h2
    simp [transcription_worker, transcription_step, h1, h2]
  · intro cw p text h
    simp [process_audio_step, h]

theorem claim4_awake_command_witness :
    strip_nonempty "turn on the lights" = true ∧ strip_nonempty "hello there" = true ∧
    transcription_step true (Except.ok "turn on the lights")
      = (false, [TransEvent.command "turn on the lights"]) ∧
    transcription_worker true [Except.ok "turn on the lights", Except.ok "hello there"]
      = (false, [TransEvent.command "turn on the lights", TransEvent.monitoring "hello there"]) ∧
    process_audio_step check_wake_word { isAwake := true, isProcessing := false }
        (Except.ok "turn on the lights")
      = ({ isAwake := false, isProcessing := false },
         [AssistantEvent.command "turn on the lights",
          AssistantEvent.askOllama "turn on the lights"]) := by
  refine ⟨by decide, by decide, ?_, ?_, ?_⟩
  · exact claim4_awake_command.1 _ (by decide)
  · exact claim4_awake_command.2.1 _ _ (by decide) (by decide)
  · exact claim4_awake_command.2.2 check_wake_word false _ (by decide)

/-- C5 counterexample: in the assistant variant with the default wake
pattern, SessionState Idle and the non-empty transcription "hey assistant",
the cited idle branch mutates SessionState to Awake (the transcript-pattern
wake trigger), refuting the claim that the transcription worker never
mutates SessionState on idle monitoring text. -/
theorem claim5_counterexample :
    (process_audio_step check_wake_word { isAwake := false, isProcessing := false }
      (Except.ok "hey assistant")).1 = { isAwake := true, isProcessing := false } := by
  decide

/-- C5 amended: whenever SessionState is Idle, a non-empty transcription
result is reported as monitoring text and the downstream command handler is
never invoked for it.  The demo transcription worker leaves SessionState
unchanged; the assistant variant transitions Idle to Awake in that same
iteration exactly when the text matches the configured wake pattern, and
leaves the state unchanged otherwise. -/
theorem claim5_idle_monitoring :
    (∀ text, strip_nonempty text = true →
      transcription_step false (Except.ok text) = (false, [TransEvent.monitoring text])) ∧
    (∀ (checkWake : String → Bool) (p : Bool) (text : String), strip_nonempty text = true →
      ((process_audio_step checkWake { isAwake := false, isProcessing := p }
          (Except.ok text)).2.head? = some (AssistantEvent.monitoring text) ∧
       (∀ u, AssistantEvent.command u ∉ (process_audio_step checkWake
            { isAwake := false, isProcessing := p } (Except.ok text)).2 ∧
          AssistantEvent.askOllama u ∉ (process_audio_step checkWake
            { isAwake := false, isProcessing := p } (Except.ok text)).2) ∧
       (checkWake text = false →
         process_audio_step checkWake { isAwake := false, isProcessing := p } (Except.ok text)
           = ({ isAwake := false, isProcessing := p }, [AssistantEvent.monitoring text])))) := by
  constructor
  · intro text h
    simp [transcription_step, h]
  · intro cw p text h
    by_cases hw : cw text
    · simp [process_audio_step, h, hw]
    · simp [process_audio_step, h, hw]

theorem claim5_idle_monitoring_witness :
    strip_nonempty "hello there" = true ∧ check_wake_word "hello there" = false ∧
    transcription_step false (Except.ok "hello there")
      = (false, [TransEvent.monitoring "hello there"]) ∧
    process_audio_step check_wake_word { isAwake := false, isProcessing := false }
        (Except.ok "hello there")
      = ({ isAwake := false, isProcessing := false },
         [AssistantEvent.monitoring "hello there"]) := by
  refine ⟨by decide, by decide, ?_, ?_⟩
  · exact claim5_idle_monitoring.1 _ (by decide)
  · exact (claim5_idle_monitoring.2 check_wake_word false _ (by decide)).2.2 (by decide)

/-- C6: an empty or whitespace-only transcription result is a defined
no-op in both variants: the state is unchanged and no event is produced,
so nothing is played and nothing is dispatched. -/
theorem claim6_blank_noop (t : String) (h : strip_nonempty t = false) :
    (∀ isAwake, transcription_step isAwake (Except.ok t) = (isAwake, [])) ∧
    (∀ (checkWake : String → Bool) (st : AssistantState),
      process_audio_step checkWake st (Except.ok t) = (st, [])) := by
  constructor
  · intro a
    simp [transcription_step, h]
  · intro cw st
    simp [process_audio_step, h]

theorem claim6_blank_noop_witness :
    strip_nonempty "  " = false ∧
    transcription_step true (Except.ok "  ") = (true, []) ∧
    process_audio_step check_wake_word { isAwake := true, isProcessing := false }
      (Except.ok "  ") = ({ isAwake := true, isProcessing := false }, []) := by
  refine ⟨by decide, ?_, ?_⟩
  · exact (claim6_blank_noop "  " (by decide)).1 true
  · exact (claim6_blank_noop "  " (by decide)).2 check_wake_word _

/-- C7: recoverable per-item failures are caught at the boundary of the
operation: a transcription failure on one segment is reported, leaves the
state unchanged, and the worker loop continues with the remaining items
exactly as it would have; a feedback-playback failure is absorbed inside
play_sound, which reports it and returns normally instead of propagating. -/
theorem claim7_per_item_errors (isAwake : Bool) (e : String)
    (rest : List (Except String String)) :
    transcription_worker isAwake (Except.error e :: rest)
      = ((transcription_worker isAwake rest).1,
         TransEvent.transError e :: (transcription_worker isAwake rest).2) ∧
    transcription_step isAwake (Except.error e) = (isAwake, [TransEvent.transError e]) ∧
    play_sound (Except.error e) = PlayOutcome.soundError e := by
  refine ⟨?_, rfl, rfl⟩
  simp [transcription_worker, transcription_step]

/-- C8: the capture callback pushes each segment into the wake queue first
and the transcription queue second, and after dispatching the captured
sequence each consumer queue holds exactly that sequence in capture order,
so every segment occurrence is delivered exactly once to each queue. -/
theorem claim8_dispatch (segs : List (List Int)) :
    audio_callback = (fun seg => [(QueueId.wakeQ, seg), (QueueId.transcriptionQ, seg)]) ∧
    dispatchAll segs = { wake_queue := segs, transcription_queue := segs } ∧
    (∀ s, (dispatchAll segs).wake_queue.count s = segs.count s ∧
          (dispatchAll segs).transcription_queue.count s = segs.count s) := by
  have hd : dispatchAll segs = { wake_queue := segs, transcription_queue := segs } := by
    unfold dispatchAll
    rw [dispatchAll_go]
    simp
  refine ⟨rfl, hd, ?_⟩
  intro s
  rw [hd]
  exact ⟨rfl, rfl⟩

/-- C9: in the assistant variant an error raised while SessionState is
Awake is caught by the handler that also resets SessionState to Idle, so
the awake window is consumed by the failed segment and the next non-empty
transcription is treated as monitoring text, never as a command. -/
theorem claim9_error_resets_awake (checkWake : String → Bool) (p : Bool) (e t : String)
    (h : strip_nonempty t = true) :
    process_audio_step checkWake { isAwake := true, isProcessing := p } (Except.error e)
      = ({ isAwake := false, isProcessing := p }, [AssistantEvent.procError e]) ∧
    (process_audio_step checkWake { isAwake := false, isProcessing := p }
        (Except.ok t)).2.head? = some (AssistantEvent.monitoring t) ∧
    (∀ u, AssistantEvent.command u ∉
      (process_audio_step checkWake { isAwake := false, isProcessing := p } (Except.ok t)).2) := by
  refine ⟨rfl, ?_, ?_⟩
  · by_cases hw : checkWake t
    · simp [process_audio_step, h, hw]
    · simp [process_audio_step, h, hw]
  · intro u
    by_cases hw : checkWake t
    · simp [process_audio_step, h, hw]
    · simp [process_audio_step, h, hw]

theorem claim9_error_resets_awake_witness :
    strip_nonempty "hello there" = true ∧
    process_audio_step check_wake_word { isAwake := true, isProcessing := false }
        (Except.error "boom")
      = ({ isAwake := false, isProcessing := false }, [AssistantEvent.procError "boom"]) ∧
    (process_audio_step check_wake_word { isAwake := false, isProcessing := false }
        (Except.ok "hello there")).2.head? = some (AssistantEvent.monitoring "hello there") := by
  have h := claim9_error_resets_awake check_wake_word false "boom" "hello there" (by decide)
  exact ⟨by decide, h.1, h.2.1⟩

/-- C10: while a command is being processed (is_processing true) the
assistant's capture callback leaves the audio queue unchanged, so the
segment is discarded and can never be transcribed or trigger a wake word;
when is_processing is false the segment is appended to the queue. -/
theorem claim10_processing_drops (a : Bool) (q : List (List Int)) (seg : List Int) :
    assistant_audio_callback { isAwake := a, isProcessing := true } q seg = q ∧
    assistant_audio_callback { isAwake := a, isProcessing := false } q seg = q ++ [seg] := by
  constructor <;> simp [assistant_audio_callback]

end Jabra
